import Mathlib

/-
Verification of the distributed gather-reorder-render engine of
src/ufo/filters/PrintFilterData.cc (class ufo::PrintFilterData).

The embedding below translates, function by function, the code of
PrintFilterData.cc:
  * getVariableNameAtLevel / getVariableNameWithChannel (lines 144-156),
  * the per-channel branch of getData (lines 53-70), recorded as a trace of
    collective-gather events together with the emitted diagnostic notes and
    the display keys inserted into the filterData_ cache,
  * getAllData (lines 163-197) as the concatenation of per-field traces,
  * getMaxVariableNameLength (lines 199-232),
  * printAllData (lines 234-395): the locmin/locmax normalisation, the
    stable sort of location indices, the row-selection loop, the grouping
    of selected rows into table rows of nlocsPerRow entries, and
  * printVariable (lines 122-142).

Conventions.  C++ ints are Lean Int; std::vector<T> is List T; a C++
subscript a[i] whose index may be out of range is modelled with List.get?,
and a computation that would perform an out-of-range subscript (undefined
behaviour) yields none.  std::stable_sort is modelled by List.insertionSort,
which is a stable sort; the comparator passed to it is the one from line
274 of the source (comparison of the gathered index values).  The boolean
apply mask is gathered as a vector of ints (line 250), so mask entries are
Int and a mask test is a test against zero, as in C++.
-/

namespace UfoPrint

/-- Observable events of one worker's run: the welcome banner, a diagnostic
note, the three kinds of collective allGatherv calls (per-field data at
lines 51/67/82/98/117, the apply mask at line 254, the location index at
line 266), the eckit::BadValue throw at line 241, and the printing of one
table row group. -/
inductive Event where
  | banner
  | note
  | gatherField
  | gatherApply
  | gatherIndex
  | errorRaised
  | tableRow
deriving DecidableEq

/-- The display key "<group>/<variable name>" built by
getVariableNameWithChannel (lines 151-156). -/
def displayKey (group nm : String) : String := group ++ "/" ++ nm

/-- getVariableNameAtLevel (lines 144-149): "<varname> (level <level>)". -/
def getVariableNameAtLevel (varname : String) (level : Int) : String :=
  varname ++ " (level " ++ toString level ++ ")"

/-- Modelled from the spec: the external ufo::Variable class (its header is
not part of the sources given); it exposes a group name and, per channel
index, the channel-specific variable name returned by its variable(ich)
method. -/
structure Variable where
  group : String
  channelName : Nat → String

/-- getVariableNameWithChannel (lines 151-156): streams
variable.group() << "/" << variable.variable(channel). -/
def getVariableNameWithChannel (v : Variable) (channel : Nat) : String :=
  displayKey v.group (v.channelName channel)

/-- The per-channel loop of getData (lines 56-69).  Each channel is given by
its channel-specific variable name and a flag telling whether the
obsdb_.get_db fetch succeeds on this worker.  On success the worker calls
allGatherv (a gatherField event) and stores the gathered column in the
filterData_ cache under the channel's display key; on failure the catch
block prints "<display key> not present in filter data" and continues with
the next channel, so no gather event and no cache entry are produced for
that channel.  Result: (events, notes, cache keys), each in loop order. -/
def getDataChannels (group : String) :
    List (String × Bool) → List Event × List String × List String
  | [] => ([], [], [])
  | (nm, ok) :: rest =>
    let r := getDataChannels group rest
    if ok then
      (Event.gatherField :: r.1, r.2.1, displayKey group nm :: r.2.2)
    else
      (r.1, (displayKey group nm ++ " not present in filter data") :: r.2.1,
        r.2.2)

/-- One declared variable of the configuration, as dispatched by getAllData
(lines 163-197): absent from the store (note and skip, line 194), present
without channels (one data_.get plus one allGatherv, lines 47-52), or
present with channels (the loop of getDataChannels).  The multi-level
GeoVaLs/ObsDiag/ObsBiasTerm path (lines 104-120) is not needed by any claim
and is not modelled. -/
inductive FieldSpec where
  | absent (fullName : String)
  | scalar (fullName : String)
  | chans (group : String) (channels : List (String × Bool))

/-- Events emitted by getAllData for one declared variable. -/
def getFieldEvents : FieldSpec → List Event
  | .absent _ => [Event.note]
  | .scalar _ => [Event.gatherField]
  | .chans g cs => (getDataChannels g cs).1

/-- getAllData (lines 163-197): the declared variables are processed in
configured order and their event traces concatenate. -/
def getAllDataEvents (fs : List FieldSpec) : List Event :=
  (fs.map getFieldEvents).flatten

/-- Length contribution of one declared variable inside
getMaxVariableNameLength (lines 199-232): the full name for a scalar
variable (the loop does not consult data_.has, so absent variables count
too), and the display key of every channel for a channel variable. -/
def fieldMaxLen : FieldSpec → Nat
  | .absent n => n.length
  | .scalar n => n.length
  | .chans g cs => cs.foldl (fun m c => max m (displayKey g c.1).length) 0

/-- getMaxVariableNameLength (lines 199-232): running maximum, seeded with
the length of the column heading "Location" (8). -/
def getMaxVariableNameLength (fs : List FieldSpec) : Nat :=
  fs.foldl (fun m f => max m (fieldMaxLen f)) 8

/-- The comparator of line 274 lifted to the sort of line 273:
std::stable_sort of iota(0..nlocs-1) comparing gathered index values.
List.insertionSort is a stable sort, so it realises the std::stable_sort
contract; with the value comparison as relation it keeps positions with
equal values in iota order exactly as std::stable_sort does. -/
def sortIndices (globalIndex : List Int) : List Nat :=
  List.insertionSort
    (fun i j => globalIndex.getD i 0 ≤ globalIndex.getD j 0)
    (List.range globalIndex.length)

/-- permutedGlobalIndex (lines 280-283):
permutedGlobalIndex[idx] = globalIndex[sortIndices[idx]]; the subscript is
always in range because sortIndices is a permutation of 0..nlocs-1. -/
def permutedGlobalIndex (globalIndex : List Int) : List Int :=
  (sortIndices globalIndex).map (fun i => globalIndex.getD i 0)

/-- The row-selection loop of printAllData (lines 294-300), iterating over
the entries loc = permutedGlobalIndex[idx] for idx = 0..nlocs-1.  The C++
condition is
  loc >= locmin && loc < locmax && globalApply[sortIndices[loc]]
with short-circuit evaluation, so the subscripts sortIndices[loc] and
globalApply[sortIndices[loc]] are evaluated only when the range test
passes; both subscripts are modelled with get?, and an out-of-range
subscript (undefined behaviour in C++, reachable because loc is an
original row number, not a position) makes the whole loop yield none.
On success the pair of vectors (locsToPrint, indicesToPrint) is built. -/
def selectLoop (si : List Nat) (ga : List Int) (locmin locmax : Int) :
    List Int → Option (List Int × List Nat)
  | [] => some ([], [])
  | loc :: rest =>
    if locmin ≤ loc ∧ loc < locmax then
      if 0 ≤ loc then
        match si.get? loc.toNat with
        | none => none
        | some pos =>
          match ga.get? pos with
          | none => none
          | some applyVal =>
            if applyVal ≠ 0 then
              match selectLoop si ga locmin locmax rest with
              | none => none
              | some (ls, ps) => some (loc :: ls, pos :: ps)
            else selectLoop si ga locmin locmax rest
      else none
    else selectLoop si ga locmin locmax rest

/-- Lines 264-300 of printAllData: sort the gathered index, permute it, and
run the selection loop against the gathered apply mask. -/
def selectLocations (g ga : List Int) (locmin locmax : Int) :
    Option (List Int × List Nat) :=
  selectLoop (sortIndices g) ga locmin locmax (permutedGlobalIndex g)

/-- nlocsPerRow (lines 245-246):
std::max((maxTextWidth - maxVariableNameLength) / (columnWidth + 3), 1).
C++ int division truncates toward zero, which is Int.tdiv. -/
def nlocsPerRow (maxTextWidth maxVarNameLength columnWidth : Int) : Int :=
  max (Int.tdiv (maxTextWidth - maxVarNameLength) (columnWidth + 3)) 1

/-- Fuel-driven chunking.  The grouping loop of lines 308-321 starts a new
row group whenever count % nlocsPerRow == 0 and count equals the index of
the element being processed, so the group of index p holds the elements
with indices p*k .. p*k+k-1: consecutive chunks of k elements.  The fuel
(instantiated with the list length) only forces structural recursion. -/
def paginateFuel (k : Nat) : Nat → List α → List (List α)
  | 0, _ => []
  | _, [] => []
  | fuel + 1, x :: rest =>
    (x :: rest.take (k - 1)) :: paginateFuel k fuel (rest.drop (k - 1))

/-- The grouping loop of lines 308-321: chunks of k consecutive entries. -/
def paginate (k : Nat) (xs : List α) : List (List α) :=
  paginateFuel k xs.length xs

/-- The configuration parameters consumed by printAllData (their Parameters
class lives outside the given sources; names and uses are read off lines
238-246). -/
structure PrintParams where
  locminP : Int
  locmaxP : Int
  maxTextWidth : Int
  columnWidth : Int

/-- Line 238: a locmin at or beyond nlocs is clamped to nlocs - 1. -/
def effLocmin (locminP nlocs : Int) : Int :=
  if locminP ≥ nlocs then nlocs - 1 else locminP

/-- Line 239: locmax == 0 is the sentinel for "no upper bound" and becomes
nlocs. -/
def effLocmax (locmaxP nlocs : Int) : Int :=
  if locmaxP = 0 then nlocs else locmaxP

/-- Outcome of printAllData: the eckit::BadValue throw of line 241, or the
row groups (original row numbers, and positions into the gathered columns)
that the table printing loop of lines 329-394 receives. -/
inductive POut where
  | error
  | ok (rowsOfLocs : List (List Int)) (rowsOfIndices : List (List Nat))
deriving DecidableEq

/-- printAllData (lines 234-395) as a trace of events plus its outcome.
Order of operations in the source: nlocsPerRow is computed (246), the
locmin > locmax check throws (240-241) before the gather of the apply mask
(254) and of the location index (266); then the selection loop runs and
the selected rows are grouped and printed one table row group at a time
(329-394).  nlocs is obsdb_.globalNumLocs(), the length of the gathered
index vector.  none records that the run reached undefined behaviour in
the selection loop. -/
def printAllDataT (p : PrintParams) (maxVarLen : Nat) (g ga : List Int) :
    Option (List Event × POut) :=
  let nlocs : Int := g.length
  let locmin := effLocmin p.locminP nlocs
  let locmax := effLocmax p.locmaxP nlocs
  if locmin > locmax then some ([Event.errorRaised], POut.error)
  else
    let k := (nlocsPerRow p.maxTextWidth maxVarLen p.columnWidth).toNat
    match selectLocations g ga locmin locmax with
    | none => none
    | some (locs, inds) =>
      some ([Event.gatherApply, Event.gatherIndex]
              ++ (paginate k locs).map (fun _ => Event.tableRow),
            POut.ok (paginate k locs) (paginate k inds))

/-- doFilter (lines 397-418): welcome banner, then getAllData (which
performs every per-field collective gather), then printAllData. -/
def doFilterT (fs : List FieldSpec) (p : PrintParams) (g ga : List Int) :
    Option (List Event × POut) :=
  (printAllDataT p (getMaxVariableNameLength fs) g ga).map
    (fun r => (Event.banner :: (getAllDataEvents fs ++ r.1), r.2))

/-- Which events are collective gather calls. -/
def isGather : Event → Bool
  | Event.gatherField => true
  | Event.gatherApply => true
  | Event.gatherIndex => true
  | _ => false

/-- Whether some collective gather call happens strictly before the first
raised error in a trace (false when no gather precedes an error). -/
def gatherBeforeError : List Event → Bool
  | [] => false
  | Event.errorRaised :: _ => false
  | e :: rest => isGather e || gatherBeforeError rest

/-- The formatting parameters consumed by printVariable (lines 122-142). -/
structure RenderParams where
  columnWidth : Nat
  scientific : Bool
  floatPrecision : Nat

/-- std::setw with right alignment: pad on the left with spaces up to the
column width (no truncation when the text is longer). -/
def setwRight (w : Nat) (s : String) : String :=
  String.mk (List.replicate (w - s.length) ' ') ++ s

/-- The printVariable template (lines 122-135).  fmt models the iostream
insertion of a value at a given flag state (scientific or fixed) and
precision; the missing sentinel of the type is compared with ==, and a
matching value prints as the literal "missing" instead. -/
def printVariable {α : Type} [DecidableEq α] (fmt : Bool → Nat → α → String)
    (missing : α) (p : RenderParams) (v : α) : String :=
  if v = missing then setwRight p.columnWidth "missing"
  else setwRight p.columnWidth (fmt p.scientific p.floatPrecision v)

/-- The bool overload of printVariable (lines 137-142): the cached column
stores ints, the int value is streamed directly, and there is no missing
boolean value. -/
def printVariableBool (p : RenderParams) (v : Int) : String :=
  setwRight p.columnWidth (toString v)

/-- A concrete value formatter (used only to instantiate theorems about
printVariable at a closed input). -/
def fmtInt (sci : Bool) (prec : Nat) (v : Int) : String :=
  (if sci then "sci:" else "fix:") ++ toString prec ++ ":" ++ toString v

/- ----------------------------------------------------------------- -/
/- Helper lemmas                                                      -/
/- ----------------------------------------------------------------- -/

theorem getDataChannels_events (group : String) (cs : List (String × Bool)) :
    (getDataChannels group cs).1
      = (cs.filter (fun c => c.2)).map (fun _ => Event.gatherField) := by
  induction cs with
  | nil => rfl
  | cons c rest ih =>
    obtain ⟨nm, ok⟩ := c
    cases ok <;> simp [getDataChannels, ih]

theorem getDataChannels_notes (group : String) (cs : List (String × Bool)) :
    (getDataChannels group cs).2.1
      = (cs.filter (fun c => !c.2)).map
          (fun c => displayKey group c.1 ++ " not present in filter data") := by
  induction cs with
  | nil => rfl
  | cons c rest ih =>
    obtain ⟨nm, ok⟩ := c
    cases ok <;> simp [getDataChannels, ih]

theorem getDataChannels_keys (group : String) (cs : List (String × Bool)) :
    (getDataChannels group cs).2.2
      = (cs.filter (fun c => c.2)).map (fun c => displayKey group c.1) := by
  induction cs with
  | nil => rfl
  | cons c rest ih =>
    obtain ⟨nm, ok⟩ := c
    cases ok <;> simp [getDataChannels, ih]

theorem mem_getAllDataEvents {fs : List FieldSpec} {e : Event}
    (he : e ∈ getAllDataEvents fs) : e = Event.note ∨ e = Event.gatherField := by
  induction fs with
  | nil => simp [getAllDataEvents] at he
  | cons f rest ih =>
    simp only [getAllDataEvents, List.map_cons, List.flatten_cons,
      List.mem_append] at he
    rcases he with he | he
    · cases f with
      | absent n => simp [getFieldEvents] at he; simp [he]
      | scalar n => simp [getFieldEvents] at he; simp [he]
      | chans g cs =>
        rw [getFieldEvents, getDataChannels_events] at he
        rcases List.mem_map.mp he with ⟨c, _, hc⟩
        simp [← hc]
    · exact ih he

theorem paginateFuel_nil (k fuel : Nat) :
    paginateFuel (α := α) k fuel [] = [] := by
  cases fuel <;> rfl

theorem paginateFuel_flatten (k : Nat) :
    ∀ (fuel : Nat) (xs : List α), xs.length ≤ fuel →
      (paginateFuel k fuel xs).flatten = xs
  | 0, xs, h => by
    have hx : xs = [] := List.eq_nil_of_length_eq_zero (Nat.le_zero.mp h)
    subst hx; rfl
  | fuel + 1, [], _ => rfl
  | fuel + 1, x :: rest, h => by
    simp only [paginateFuel, List.flatten_cons]
    rw [paginateFuel_flatten k fuel (rest.drop (k - 1))
      (by simp only [List.length_drop]; simp at h; omega)]
    simp [List.take_append_drop]

theorem paginateFuel_mem_length (k : Nat) (hk : 1 ≤ k) :
    ∀ (fuel : Nat) (xs : List α), ∀ pg ∈ paginateFuel k fuel xs,
      1 ≤ pg.length ∧ pg.length ≤ k
  | 0, xs, pg, hpg => by simp [paginateFuel] at hpg
  | fuel + 1, [], pg, hpg => by simp [paginateFuel] at hpg
  | fuel + 1, x :: rest, pg, hpg => by
    simp only [paginateFuel, List.mem_cons] at hpg
    rcases hpg with hpg | hpg
    · subst hpg
      simp only [List.length_cons, List.length_take]
      omega
    · exact paginateFuel_mem_length k hk fuel (rest.drop (k - 1)) pg hpg

theorem paginateFuel_dropLast (k : Nat) (hk : 1 ≤ k) :
    ∀ (fuel : Nat) (xs : List α), ∀ pg ∈ (paginateFuel k fuel xs).dropLast,
      pg.length = k
  | 0, xs, pg, hpg => by simp [paginateFuel] at hpg
  | fuel + 1, [], pg, hpg => by simp [paginateFuel] at hpg
  | fuel + 1, x :: rest, pg, hpg => by
    simp only [paginateFuel] at hpg
    rcases hq : paginateFuel k fuel (rest.drop (k - 1)) with _ | ⟨q, qs⟩
    · rw [hq] at hpg
      simp at hpg
    · rw [hq, List.dropLast_cons₂, List.mem_cons] at hpg
      have hrest : k - 1 ≤ rest.length := by
        by_contra hlen
        push_neg at hlen
        have hdrop : rest.drop (k - 1) = [] :=
          List.drop_eq_nil_of_le (le_of_lt hlen)
        rw [hdrop, paginateFuel_nil] at hq
        exact List.noConfusion hq
      rcases hpg with hpg | hpg
      · subst hpg
        simp only [List.length_cons, List.length_take]
        omega
      · have := paginateFuel_dropLast k hk fuel (rest.drop (k - 1)) pg
        rw [hq] at this
        exact this hpg

theorem paginate_flatten (k : Nat) (xs : List α) :
    (paginate k xs).flatten = xs :=
  paginateFuel_flatten k xs.length xs le_rfl

theorem nlocsPerRow_pos (mtw mvl cw : Int) : 1 ≤ nlocsPerRow mtw mvl cw :=
  le_max_right _ _

theorem nlocsPerRow_toNat_eq (mtw mvl cw : Int) (hcw : 0 < cw + 3) :
    (nlocsPerRow mtw mvl cw).toNat
      = max 1 ((mtw - mvl) / (cw + 3)).toNat := by
  unfold nlocsPerRow
  rcases le_or_lt 0 (mtw - mvl) with hnum | hnum
  · rw [Int.tdiv_eq_ediv hnum (le_of_lt hcw)]
    have hd : 0 ≤ (mtw - mvl) / (cw + 3) :=
      Int.ediv_nonneg hnum (le_of_lt hcw)
    omega
  · have h1 : Int.tdiv (mtw - mvl) (cw + 3) ≤ 0 := by
      have hng : 0 ≤ Int.tdiv (-(mtw - mvl)) (cw + 3) :=
        Int.tdiv_nonneg (by omega) (by omega)
      have hne : Int.tdiv (-(mtw - mvl)) (cw + 3)
          = -Int.tdiv (mtw - mvl) (cw + 3) := Int.neg_tdiv _ _
      omega
    have h2 : (mtw - mvl) / (cw + 3) ≤ 0 := le_of_lt (Int.ediv_neg' hnum hcw)
    omega

theorem selectLoop_empty_range (si : List Nat) (ga : List Int) (m : Int) :
    ∀ locs : List Int, selectLoop si ga m m locs = some ([], [])
  | [] => rfl
  | loc :: rest => by
    rw [selectLoop, if_neg, selectLoop_empty_range si ga m rest]
    rintro ⟨h1, h2⟩
    exact absurd (lt_of_le_of_lt h1 h2) (lt_irrefl m)

/- ----------------------------------------------------------------- -/
/- Claim theorems                                                     -/
/- ----------------------------------------------------------------- -/

/-- Claim C1.  In the worked scenario (gathered index [2,4,1,3], bounds
min=0 and max=6, all-true apply mask) the reconciler does produce the sort
permutation [2,0,3,1] and the ascending row list [1,2,3,4], but the
selection loop does NOT produce the positions [2,0,3,1]: it reads
sortIndices[loc] with loc the original row number instead of
sortIndices[idx], so at the row loc = 4 it subscripts sortIndices (length
4) out of range, which is undefined behaviour (modelled as none).  The
claimed output (all four rows selected with positions [2,0,3,1]) is
exactly what the source's own comments at lines 292-293 promise, so the
code contradicts its own documentation. -/
theorem c1_worked_scenario :
    sortIndices [2, 4, 1, 3] = [2, 0, 3, 1]
    ∧ permutedGlobalIndex [2, 4, 1, 3] = [1, 2, 3, 4]
    ∧ selectLocations [2, 4, 1, 3] [1, 1, 1, 1] 0 6 = none
    ∧ printAllDataT ⟨0, 6, 80, 10⟩ 8 [2, 4, 1, 3] [1, 1, 1, 1] = none := by
  decide

/-- Claim C2.  The row-selection loop does not keep its subscripts inside
0..N-1: already with one worker holding the single row with original row
number 1 (row 0 excluded upstream, so N = 1) and bounds [0, 2), the loop
evaluates sortIndices[1] on an array of length 1.  The out-of-range
subscript is modelled as none. -/
theorem c2_selection_out_of_bounds :
    sortIndices [1] = [0]
    ∧ permutedGlobalIndex [1] = [1]
    ∧ selectLocations [1] [1] 0 2 = none := by
  decide

/-- Claim C3.  For every gathered Local Row Index with pairwise-distinct
entries, the stable sort of lines 271-275 yields a permutation of the
positions 0..N-1, applying it to the gathered index (lines 280-283) yields
a strictly ascending sequence, hence one without duplicates; moreover the
produced permutation is the unique permutation of 0..N-1 that sorts the
index ascendingly, so it is in particular the one any stable sort of the
positions by their index value produces. -/
theorem c3_reconciler (g : List Int) (hg : g.Nodup) :
    (sortIndices g).Perm (List.range g.length)
    ∧ (permutedGlobalIndex g).Sorted (· < ·)
    ∧ (permutedGlobalIndex g).Nodup
    ∧ ∀ p : List Nat, p.Perm (List.range g.length) →
        (p.map (fun i => g.getD i 0)).Sorted (· < ·) →
        p = sortIndices g := by
  have hperm : (sortIndices g).Perm (List.range g.length) :=
    List.perm_insertionSort _ _
  have hnodup : (sortIndices g).Nodup :=
    hperm.nodup_iff.mpr (List.nodup_range _)
  have hmem : ∀ i ∈ sortIndices g, i < g.length := fun i hi =>
    List.mem_range.mp (hperm.mem_iff.mp hi)
  haveI : IsTotal Nat (fun i j => g.getD i 0 ≤ g.getD j 0) :=
    ⟨fun a b => le_total _ _⟩
  haveI : IsTrans Nat (fun i j => g.getD i 0 ≤ g.getD j 0) :=
    ⟨fun a b c hab hbc => le_trans hab hbc⟩
  have hsorted : (sortIndices g).Pairwise (fun i j => g.getD i 0 ≤ g.getD j 0) :=
    List.sorted_insertionSort _ _
  have hstrict : (sortIndices g).Pairwise (fun i j => g.getD i 0 < g.getD j 0) := by
    refine (hsorted.and hnodup).imp_of_mem ?_
    intro a b ha hb hab
    have ha2 := hmem a ha
    have hb2 := hmem b hb
    rcases hab with ⟨hle, hne⟩
    rw [List.getD_eq_getElem g 0 ha2, List.getD_eq_getElem g 0 hb2] at hle ⊢
    refine lt_of_le_of_ne hle ?_
    intro he
    exact hne (hg.getElem_inj_iff.mp he)
  have hsortedMap : (permutedGlobalIndex g).Sorted (· < ·) :=
    List.pairwise_map.mpr hstrict
  haveI : IsIrrefl Int (· < ·) := ⟨lt_irrefl⟩
  refine ⟨hperm, hsortedMap, hsortedMap.nodup, ?_⟩
  intro p hp hps
  haveI : IsAntisymm Int (· < ·) :=
    ⟨fun a b h1 h2 => absurd (lt_trans h1 h2) (lt_irrefl a)⟩
  have hpp : p.Perm (sortIndices g) := hp.trans hperm.symm
  have hmapsPerm : (p.map (fun i => g.getD i 0)).Perm
      ((sortIndices g).map (fun i => g.getD i 0)) := hpp.map _
  have hmaps : p.map (fun i => g.getD i 0)
      = (sortIndices g).map (fun i => g.getD i 0) :=
    List.eq_of_perm_of_sorted hmapsPerm hps hsortedMap
  have hlen : p.length = (sortIndices g).length := hpp.length_eq
  refine List.ext_getElem hlen ?_
  intro n h1 h2
  have hpn : p[n] < g.length :=
    List.mem_range.mp (hp.mem_iff.mp (List.getElem_mem h1))
  have hsn : (sortIndices g)[n] < g.length := hmem _ (List.getElem_mem h2)
  have hfe : (p.map (fun i => g.getD i 0)).getD n 0
      = ((sortIndices g).map (fun i => g.getD i 0)).getD n 0 := by
    rw [hmaps]
  rw [List.getD_eq_getElem _ 0 (by simpa using h1),
    List.getD_eq_getElem _ 0 (by simpa using h2)] at hfe
  rw [List.getElem_map, List.getElem_map] at hfe
  rw [List.getD_eq_getElem g 0 hpn, List.getD_eq_getElem g 0 hsn] at hfe
  exact hg.getElem_inj_iff.mp hfe

/-- Claim C3, witness: the worked index [2,4,1,3] has pairwise-distinct
entries and the reconciler contract holds there. -/
theorem c3_witness :
    ([2, 4, 1, 3] : List Int).Nodup
    ∧ ((sortIndices [2, 4, 1, 3]).Perm
          (List.range ([2, 4, 1, 3] : List Int).length)
      ∧ (permutedGlobalIndex [2, 4, 1, 3]).Sorted (· < ·)
      ∧ (permutedGlobalIndex [2, 4, 1, 3]).Nodup
      ∧ ∀ p : List Nat, p.Perm (List.range ([2, 4, 1, 3] : List Int).length) →
          (p.map (fun i => ([2, 4, 1, 3] : List Int).getD i 0)).Sorted (· < ·) →
          p = sortIndices [2, 4, 1, 3]) :=
  ⟨by decide, c3_reconciler [2, 4, 1, 3] (by decide)⟩

/-- Claim C4, counterexample.  With one present scalar field and effective
bounds min=3 > max=2, the run performs a collective gather (the field
gather inside getAllData, which doFilter calls at line 414 before
printAllData) strictly before the error is raised at line 241, so the
error does not precede every collective gather call as claimed. -/
theorem c4_counterexample :
    (doFilterT [FieldSpec.scalar "ObsValue/x"] ⟨3, 2, 80, 10⟩
        [0, 1, 2, 3, 4] [1, 1, 1, 1, 1]).map (fun r => gatherBeforeError r.1)
      = some true := by
  decide

/-- Claim C4, amended.  When the effective minimum bound exceeds the
effective maximum bound, the run raises the ConfigurationError before any
table output and before the apply-mask and index gathers of printAllData;
but the per-field collective gathers of getAllData have already executed,
because doFilter calls getAllData before printAllData.  The trace is
exactly the banner, the getAllData events (only notes and field gathers),
then the error. -/
theorem c4_amended (fs : List FieldSpec) (p : PrintParams) (g ga : List Int)
    (h : effLocmin p.locminP (g.length : Int)
        > effLocmax p.locmaxP (g.length : Int)) :
    doFilterT fs p g ga
      = some (Event.banner :: (getAllDataEvents fs ++ [Event.errorRaised]),
          POut.error)
    ∧ ∀ e ∈ getAllDataEvents fs, e = Event.note ∨ e = Event.gatherField := by
  constructor
  · simp only [doFilterT, printAllDataT]
    rw [if_pos h]
    rfl
  · intro e he
    exact mem_getAllDataEvents he

/-- Claim C4, witness for the amended statement. -/
theorem c4_witness :
    effLocmin (⟨3, 2, 80, 10⟩ : PrintParams).locminP
        (([0, 1, 2, 3, 4] : List Int).length : Int)
      > effLocmax (⟨3, 2, 80, 10⟩ : PrintParams).locmaxP
        (([0, 1, 2, 3, 4] : List Int).length : Int)
    ∧ (doFilterT [FieldSpec.scalar "ObsValue/x"] ⟨3, 2, 80, 10⟩
          [0, 1, 2, 3, 4] [1, 1, 1, 1, 1]
        = some (Event.banner
            :: (getAllDataEvents [FieldSpec.scalar "ObsValue/x"]
                ++ [Event.errorRaised]),
            POut.error)
      ∧ ∀ e ∈ getAllDataEvents [FieldSpec.scalar "ObsValue/x"],
          e = Event.note ∨ e = Event.gatherField) :=
  ⟨by decide, c4_amended [FieldSpec.scalar "ObsValue/x"] ⟨3, 2, 80, 10⟩
    [0, 1, 2, 3, 4] [1, 1, 1, 1, 1] (by decide)⟩

/-- Claim C5, counterexample.  With min = max = 0 the configured locmax 0
is the "no upper bound" sentinel (line 239), so the effective bounds are
[0, nlocs) and ALL rows are selected, not zero: with two rows and an
all-true mask the run selects both rows and prints one table row group. -/
theorem c5_counterexample :
    printAllDataT ⟨0, 0, 80, 10⟩ 8 [0, 1] [1, 1]
      = some ([Event.gatherApply, Event.gatherIndex, Event.tableRow],
          POut.ok [[0, 1]] [[0, 1]])
    ∧ printAllDataT ⟨0, 0, 80, 10⟩ 8 [0, 1] [1, 1]
      ≠ some ([Event.gatherApply, Event.gatherIndex], POut.ok [] []) := by
  decide

/-- Claim C5, amended.  For every configuration with minimum equal to
maximum, POSITIVE (so the locmax == 0 sentinel does not fire) and below
the total row count (so the locmin clamp of line 238 does not fire), zero
rows are selected: no error is raised and the set of table row groups is
empty.  For min = max = 0 the sentinel turns the bound into "no upper
bound" instead (see the counterexample). -/
theorem c5_amended (p : PrintParams) (mvl : Nat) (g ga : List Int)
    (h0 : 0 < p.locminP) (heq : p.locminP = p.locmaxP)
    (hlt : p.locminP < (g.length : Int)) :
    printAllDataT p mvl g ga
      = some ([Event.gatherApply, Event.gatherIndex], POut.ok [] []) := by
  have h1 : effLocmin p.locminP (g.length : Int) = p.locminP :=
    if_neg (not_le.mpr hlt)
  have h2 : effLocmax p.locmaxP (g.length : Int) = p.locmaxP :=
    if_neg (by omega)
  simp only [printAllDataT, h1, h2]
  rw [if_neg (by omega : ¬ p.locminP > p.locmaxP), ← heq,
    selectLocations, selectLoop_empty_range]
  rfl

/-- Claim C5, witness for the amended statement. -/
theorem c5_witness :
    (0 : Int) < (⟨1, 1, 80, 10⟩ : PrintParams).locminP
    ∧ (⟨1, 1, 80, 10⟩ : PrintParams).locminP
        = (⟨1, 1, 80, 10⟩ : PrintParams).locmaxP
    ∧ (⟨1, 1, 80, 10⟩ : PrintParams).locminP
        < (([0, 1, 2] : List Int).length : Int)
    ∧ printAllDataT ⟨1, 1, 80, 10⟩ 8 [0, 1, 2] [1, 1, 1]
        = some ([Event.gatherApply, Event.gatherIndex], POut.ok [] []) :=
  ⟨by decide, by decide, by decide,
    c5_amended ⟨1, 1, 80, 10⟩ 8 [0, 1, 2] [1, 1, 1]
      (by decide) (by decide) (by decide)⟩

/-- Claim C6, counterexample.  The sequence of collective gather calls is
NOT independent of which channels are present in the local store: for a
field with two channels, a worker whose fetch of the second channel fails
performs one gather, while a worker where both fetches succeed performs
two — the catch block at lines 61-65 executes `continue`, which skips the
allGatherv at line 67 for the failed channel. -/
theorem c6_counterexample :
    (getDataChannels "ObsValue"
        [("airTemperature_1", true), ("airTemperature_2", false)]).1
      ≠ (getDataChannels "ObsValue"
        [("airTemperature_1", true), ("airTemperature_2", true)]).1 := by
  decide

/-- Claim C6, amended.  A per-channel fetch failure is caught locally, but
it DOES cause the corresponding collective gather call to be skipped on
the failing worker: the gatherer performs exactly one collective gather
per channel whose fetch succeeds, in channel order, and none for a failed
channel.  (The sequence of collective calls therefore matches across
workers only when channel presence is identical on all workers.) -/
theorem c6_gather_skipped (group : String) (cs : List (String × Bool)) :
    (getDataChannels group cs).1
      = (cs.filter (fun c => c.2)).map (fun _ => Event.gatherField) :=
  getDataChannels_events group cs

/-- Claim C7.  For every field with declared channels: the diagnostic
notes are exactly "<display key> not present in filter data" for the
channels whose fetch fails, in channel order; the filterData_ cache
receives entries exactly for the display keys of the channels whose fetch
succeeds; and a collective gather is performed exactly for those same
succeeding channels — so a failing channel produces a note, no cache
entry, and the remaining channels still proceed. -/
theorem c7_missing_channel (group : String) (cs : List (String × Bool)) :
    (getDataChannels group cs).2.1
      = (cs.filter (fun c => !c.2)).map
          (fun c => displayKey group c.1 ++ " not present in filter data")
    ∧ (getDataChannels group cs).2.2
      = (cs.filter (fun c => c.2)).map (fun c => displayKey group c.1)
    ∧ (getDataChannels group cs).1
      = (cs.filter (fun c => c.2)).map (fun _ => Event.gatherField) :=
  ⟨getDataChannels_notes group cs, getDataChannels_keys group cs,
    getDataChannels_events group cs⟩

/-- Claim C8.  For every selection of rows and positive column budget, the
paginator groups the rows into table row groups of size exactly
nlocsPerRow = max(1, (maxTextWidth - longestKeyLength) / (columnWidth + 3))
(with / the C++ truncating division, which agrees with the spec's floor
formula: for a positive divisor the two differ only below zero, where the
max with 1 absorbs the difference); every group satisfies
1 ≤ size ≤ nlocsPerRow, every group except possibly the last has size
exactly nlocsPerRow, and the groups concatenate back to the selected
rows. -/
theorem c8_paginator (mtw mvl cw : Int) (locs : List Int)
    (hne : locs ≠ []) (hcw : 0 < cw + 3) :
    (nlocsPerRow mtw mvl cw).toNat = max 1 ((mtw - mvl) / (cw + 3)).toNat
    ∧ (∀ pg ∈ paginate (nlocsPerRow mtw mvl cw).toNat locs,
        1 ≤ pg.length ∧ pg.length ≤ (nlocsPerRow mtw mvl cw).toNat)
    ∧ (∀ pg ∈ (paginate (nlocsPerRow mtw mvl cw).toNat locs).dropLast,
        pg.length = (nlocsPerRow mtw mvl cw).toNat)
    ∧ (paginate (nlocsPerRow mtw mvl cw).toNat locs).flatten = locs := by
  have hk : 1 ≤ (nlocsPerRow mtw mvl cw).toNat := by
    have := nlocsPerRow_pos mtw mvl cw
    omega
  exact ⟨nlocsPerRow_toNat_eq mtw mvl cw hcw,
    fun pg hpg => paginateFuel_mem_length _ hk _ _ pg hpg,
    fun pg hpg => paginateFuel_dropLast _ hk _ _ pg hpg,
    paginate_flatten _ _⟩

/-- Claim C8, witness: maxTextWidth 30, longest key length 8, column width
10 give nlocsPerRow 1, and the two selected rows land in two groups of
size 1. -/
theorem c8_witness :
    ([5, 7] : List Int) ≠ []
    ∧ (0 : Int) < 10 + 3
    ∧ ((nlocsPerRow 30 8 10).toNat = max 1 (((30 : Int) - 8) / (10 + 3)).toNat
      ∧ (∀ pg ∈ paginate (nlocsPerRow 30 8 10).toNat [(5 : Int), 7],
          1 ≤ pg.length ∧ pg.length ≤ (nlocsPerRow 30 8 10).toNat)
      ∧ (∀ pg ∈ (paginate (nlocsPerRow 30 8 10).toNat [(5 : Int), 7]).dropLast,
          pg.length = (nlocsPerRow 30 8 10).toNat)
      ∧ (paginate (nlocsPerRow 30 8 10).toNat [(5 : Int), 7]).flatten = [5, 7]) :=
  ⟨by decide, by decide, c8_paginator 30 8 10 [5, 7] (by decide) (by decide)⟩

/-- Claim C9.  For every cell: a value equal to the type's missing
sentinel prints as the literal "missing" right-aligned to the column
width, and the output is independent of the configured precision and
notation flags (lines 126-127); any other value prints via the configured
notation flag and precision (lines 128-134); and the bool overload always
prints the 0/1 integer representation with no missing-value substitution
(lines 137-142). -/
theorem c9_renderer {α : Type} [DecidableEq α] (fmt : Bool → Nat → α → String)
    (missing v : α) (p q : RenderParams) (hw : p.columnWidth = q.columnWidth) :
    (v = missing →
        printVariable fmt missing p v = setwRight p.columnWidth "missing"
      ∧ printVariable fmt missing p v = printVariable fmt missing q v)
    ∧ (v ≠ missing →
        printVariable fmt missing p v
          = setwRight p.columnWidth (fmt p.scientific p.floatPrecision v))
    ∧ ∀ b : Int, printVariableBool p b = setwRight p.columnWidth (toString b) := by
  refine ⟨fun hv => ?_, fun hv => ?_, fun b => rfl⟩
  · subst hv
    exact ⟨by simp [printVariable], by simp [printVariable, hw]⟩
  · simp [printVariable, hv]

/-- Claim C9, witness: two parameter sets sharing the column width but
differing in notation and precision, at the missing sentinel -999. -/
theorem c9_witness :
    (⟨10, false, 3⟩ : RenderParams).columnWidth
        = (⟨10, true, 5⟩ : RenderParams).columnWidth
    ∧ (((-999 : Int) = -999 →
          printVariable fmtInt (-999) ⟨10, false, 3⟩ (-999)
              = setwRight (⟨10, false, 3⟩ : RenderParams).columnWidth "missing"
        ∧ printVariable fmtInt (-999) ⟨10, false, 3⟩ (-999)
              = printVariable fmtInt (-999) ⟨10, true, 5⟩ (-999))
      ∧ ((-999 : Int) ≠ -999 →
          printVariable fmtInt (-999) ⟨10, false, 3⟩ (-999)
            = setwRight (⟨10, false, 3⟩ : RenderParams).columnWidth
                (fmtInt (⟨10, false, 3⟩ : RenderParams).scientific
                  (⟨10, false, 3⟩ : RenderParams).floatPrecision (-999)))
      ∧ ∀ b : Int, printVariableBool ⟨10, false, 3⟩ b
          = setwRight (⟨10, false, 3⟩ : RenderParams).columnWidth (toString b)) :=
  ⟨rfl, c9_renderer fmtInt (-999) (-999) ⟨10, false, 3⟩ ⟨10, true, 5⟩ rfl⟩

/-- Claim C10.  Display key generation is the deterministic function the
spec fixes: field "temperature" at level 3 yields "temperature (level 3)",
and group "ObsValue" with per-channel variable name "airTemperature_2" at
channel index 2 yields "ObsValue/airTemperature_2". -/
theorem c10_display_keys :
    getVariableNameAtLevel "temperature" 3 = "temperature (level 3)"
    ∧ getVariableNameWithChannel
        ⟨"ObsValue", fun i => "airTemperature_" ++ toString i⟩ 2
      = "ObsValue/airTemperature_2" := by
  constructor
  · rfl
  · rfl

end UfoPrint
